import Mathlib

/-!
Verification of the Roomify legacy-mesh-to-GLB converter
(`convert-models.js`: `convertThreeJsJsonToGltf`, `createGlb`, `convertModels`).

Shallow embedding conventions:
* JavaScript numbers are modelled as exact rationals (`ℚ`) extended with the
  non-numeric values the converter can actually produce: `NaN` (from reading
  an `undefined` array slot and multiplying it) and the `±Infinity` sentinels
  used by the bounding-box accumulation.  This is captured by `JNum`.
* A JavaScript array read `a[i]` that may be out of range is modelled with
  `Option`: `none` plays the role of `undefined`.
* Strings (file names, color keywords) are modelled as lists of characters;
  `jsToLower` models `String.prototype.toLowerCase` on the ASCII range, which
  covers every keyword in the converter's color table.
* The legacy document is modelled after JSON parsing, with the `|| default`
  field fall-backs of the source already applied (`scale`, `vertices`,
  `normals`, `faces`, `materials`); the source's UV-channel selection
  `modelData.uvs && modelData.uvs[0] ? modelData.uvs[0] : []` is kept
  explicitly (`LegacyDoc.uvChannels`, read via `headD []`).
* Byte buffers are lists of naturals; `writeUInt32LE` is `u32le`.
  The serialization of the scene JSON (`JSON.stringify`) is not modelled:
  theorems about `createGlb` quantify over the JSON chunk's byte sequence,
  which is the only thing the binary layout depends on.
-/

/-- A JavaScript numeric value as produced by the converter: an exact
rational, `NaN`, or one of the two infinities used as bounding-box
sentinels. -/
inductive JNum where
  | num : ℚ → JNum
  | nan : JNum
  | inf : JNum
  | negInf : JNum
deriving DecidableEq, Repr

/-- `Math.min` restricted to the values of `JNum` (NaN propagates, the
infinities behave as neutral/absorbing elements). -/
def jsMin : JNum → JNum → JNum
  | JNum.nan, _ => JNum.nan
  | _, JNum.nan => JNum.nan
  | JNum.negInf, _ => JNum.negInf
  | _, JNum.negInf => JNum.negInf
  | JNum.inf, y => y
  | x, JNum.inf => x
  | JNum.num a, JNum.num b => JNum.num (min a b)

/-- `Math.max` restricted to the values of `JNum`. -/
def jsMax : JNum → JNum → JNum
  | JNum.nan, _ => JNum.nan
  | _, JNum.nan => JNum.nan
  | JNum.inf, _ => JNum.inf
  | _, JNum.inf => JNum.inf
  | JNum.negInf, y => y
  | x, JNum.negInf => x
  | JNum.num a, JNum.num b => JNum.num (max a b)

/-- JavaScript array read `a[i]` with an integer index: `undefined`
(`none`) when the index is negative or beyond the end. -/
def listAtZ (a : List ℚ) (i : ℤ) : Option ℚ :=
  if 0 ≤ i then a[i.toNat]? else none

/-- JavaScript `a[i] || 0`: an `undefined` read falls back to `0`
(the converter's missing-element fallback for normals and UVs). -/
def atOr0 (a : List ℚ) (i : ℤ) : ℚ := (listAtZ a i).getD 0

/-- One position component `vertices[idx] * scale`: multiplying an
`undefined` read yields `NaN`. -/
def jscale (x : Option ℚ) (s : ℚ) : JNum :=
  match x with
  | some a => JNum.num (a * s)
  | none => JNum.nan

/-- Source lines: `positions.push(vertices[vIdx]*scale, …)` where
`vIdx = vertexIndices[v] * 3`; an `undefined` vertex index (truncated
stream) makes all three components `NaN`. -/
def readPosition (vertices : List ℚ) (scale : ℚ) (vi : Option ℤ) :
    JNum × JNum × JNum :=
  match vi with
  | none => (JNum.nan, JNum.nan, JNum.nan)
  | some k =>
      (jscale (listAtZ vertices (3 * k)) scale,
       jscale (listAtZ vertices (3 * k + 1)) scale,
       jscale (listAtZ vertices (3 * k + 2)) scale)

/-- Source lines: `normalData.push(normals[nIdx] || 0, …)` when a
per-vertex normal index is present, the `(0, 1, 0)` default otherwise. -/
def readNormal (normals : List ℚ) (ni : Option ℤ) : ℚ × ℚ × ℚ :=
  match ni with
  | some k => (atOr0 normals (3 * k), atOr0 normals (3 * k + 1), atOr0 normals (3 * k + 2))
  | none => (0, 1, 0)

/-- Source lines: `uvData.push(uvs[uIdx] || 0, …)` when a per-vertex UV
index is present, the `(0, 0)` default otherwise. -/
def readUV (uvs : List ℚ) (ui : Option ℤ) : ℚ × ℚ :=
  match ui with
  | some k => (atOr0 uvs (2 * k), atOr0 uvs (2 * k + 1))
  | none => (0, 0)

/-- Bit `b` of the face-type flag, after JavaScript's `ToInt32` coercion
(`faceType & (1 << b)`): bits are taken from the value modulo `2^32`. -/
def bitOf (faceType : ℤ) (b : ℕ) : Bool :=
  ((faceType % (2 ^ 32 : ℤ)).toNat).testBit b

/-- The fields read for one face record, plus the remaining face stream.
`vertexIndices` always has `numVertices` entries; an entry is `none` when
the read ran past the end of the stream (JavaScript `undefined`).
`faceUvIndices` / `faceNormalIndices` are empty when the corresponding
flag bit is clear, mirroring the empty arrays of the source. -/
structure FaceRecord where
  isQuad : Bool
  numVertices : ℕ
  vertexIndices : List (Option ℤ)
  faceUvIndices : List (Option ℤ)
  faceNormalIndices : List (Option ℤ)
  rest : List ℤ
deriving DecidableEq, Repr

/-- Decoding of one face record from the flat integer stream, mirroring
the flag decomposition and the fixed sequence of conditional reads of
`convertThreeJsJsonToGltf` (reads: vertex indices; skip material index;
skip face UV; per-vertex UV indices; skip face normal; per-vertex normal
indices; skip face color; skip per-vertex colors). -/
def decodeFace (faceType : ℤ) (rest0 : List ℤ) : FaceRecord :=
  let isQuad := bitOf faceType 0
  let hasMaterial := bitOf faceType 1
  let hasFaceUv := bitOf faceType 2
  let hasFaceVertexUv := bitOf faceType 3
  let hasFaceNormal := bitOf faceType 4
  let hasFaceVertexNormal := bitOf faceType 5
  let hasFaceColor := bitOf faceType 6
  let hasFaceVertexColor := bitOf faceType 7
  let numVertices := if isQuad then 4 else 3
  let vertexIndices := (List.range numVertices).map (fun v => rest0[v]?)
  let r1 := rest0.drop numVertices
  let r2 := if hasMaterial then r1.drop 1 else r1
  let r3 := if hasFaceUv then r2.drop 1 else r2
  let faceUvIndices :=
    if hasFaceVertexUv then (List.range numVertices).map (fun v => r3[v]?) else []
  let r4 := if hasFaceVertexUv then r3.drop numVertices else r3
  let r5 := if hasFaceNormal then r4.drop 1 else r4
  let faceNormalIndices :=
    if hasFaceVertexNormal then (List.range numVertices).map (fun v => r5[v]?) else []
  let r6 := if hasFaceVertexNormal then r5.drop numVertices else r5
  let r7 := if hasFaceColor then r6.drop 1 else r6
  let r8 := if hasFaceVertexColor then r7.drop numVertices else r7
  ⟨isQuad, numVertices, vertexIndices, faceUvIndices, faceNormalIndices, r8⟩

theorem ite_drop_le (c : Bool) (l : List ℤ) (n : ℕ) :
    (if c then l.drop n else l).length ≤ l.length := by
  cases c <;> simp [List.length_drop]

theorem decodeFace_rest_le (faceType : ℤ) (rest0 : List ℤ) :
    (decodeFace faceType rest0).rest.length ≤ rest0.length := by
  unfold decodeFace
  refine le_trans (ite_drop_le _ _ _) ?_
  refine le_trans (ite_drop_le _ _ _) ?_
  refine le_trans (ite_drop_le _ _ _) ?_
  refine le_trans (ite_drop_le _ _ _) ?_
  refine le_trans (ite_drop_le _ _ _) ?_
  refine le_trans (ite_drop_le _ _ _) ?_
  split <;> simp [List.length_drop]

/-- The mutable accumulation state of the face loop of
`convertThreeJsJsonToGltf`: the flat attribute buffers, the triangle
index list, and the running fresh-corner counter `vertexIndex`. -/
structure ConvState where
  positions : List JNum
  normalData : List ℚ
  uvData : List ℚ
  indices : List ℕ
  vertexIndex : ℕ
deriving DecidableEq, Repr

/-- Emission of one corner `v` of a face (the body of the
`for (let v = 0; v < numVertices; v++)` loop): push three scaled position
components, three normal components (default `(0,1,0)`), two UV
components (default `(0,0)`), and advance `vertexIndex`. -/
def emitCorner (V N U : List ℚ) (s : ℚ) (fr : FaceRecord) (st : ConvState) (v : ℕ) :
    ConvState :=
  let p := readPosition V s ((fr.vertexIndices[v]?).bind id)
  let n := readNormal N ((fr.faceNormalIndices[v]?).bind id)
  let u := readUV U ((fr.faceUvIndices[v]?).bind id)
  { st with
    positions := st.positions ++ [p.1, p.2.1, p.2.2]
    normalData := st.normalData ++ [n.1, n.2.1, n.2.2]
    uvData := st.uvData ++ [u.1, u.2]
    vertexIndex := st.vertexIndex + 1 }

/-- Emission of one whole face: all corners in source order (corner `v`
gets the fresh output index `st.vertexIndex + v`), then the triangle
indices — the fan `(c0,c1,c2),(c0,c2,c3)` for a quad, `(c0,c1,c2)` for a
triangle. -/
def emitFace (V N U : List ℚ) (s : ℚ) (fr : FaceRecord) (st : ConvState) : ConvState :=
  let b := st.vertexIndex
  let st1 := (List.range fr.numVertices).foldl (emitCorner V N U s fr) st
  { st1 with
    indices := st1.indices ++
      (if fr.isQuad then [b, b + 1, b + 2, b, b + 2, b + 3] else [b, b + 1, b + 2]) }

/-- The `while (i < faces.length)` loop of `convertThreeJsJsonToGltf`,
expressed on the remaining suffix of the face stream (the source's read
cursor only ever moves forward, so the suffix determines every later
read). -/
def faceLoop (V N U : List ℚ) (s : ℚ) : List ℤ → ConvState → ConvState
  | [], st => st
  | faceType :: rest0, st =>
      faceLoop V N U s (decodeFace faceType rest0).rest
        (emitFace V N U s (decodeFace faceType rest0) st)
termination_by l _ => l.length
decreasing_by
  simp only [List.length_cons]
  exact Nat.lt_succ_of_le (decodeFace_rest_le faceType rest0)

theorem faceLoop_nil (V N U : List ℚ) (s : ℚ) (st : ConvState) :
    faceLoop V N U s [] st = st := by
  simp [faceLoop]

theorem faceLoop_cons (V N U : List ℚ) (s : ℚ) (faceType : ℤ) (rest0 : List ℤ)
    (st : ConvState) :
    faceLoop V N U s (faceType :: rest0) st =
      faceLoop V N U s (decodeFace faceType rest0).rest
        (emitFace V N U s (decodeFace faceType rest0) st) := by
  rw [faceLoop]

/-- ASCII lower-casing of one character, the case mapping
`String.prototype.toLowerCase` applies to every keyword of the
converter's color table. -/
def lowerChar (c : Char) : Char :=
  if 'A' ≤ c ∧ c ≤ 'Z' then Char.ofNat (c.toNat + 32) else c

/-- `fileName.toLowerCase()` on the modelled character lists. -/
def jsToLower (s : List Char) : List Char := s.map lowerChar

/-- `hay.startsWith(needle)` on character lists. -/
def startsWithSub : List Char → List Char → Bool
  | _, [] => true
  | [], _ :: _ => false
  | h :: t, n :: m => h == n && startsWithSub t m

/-- `hay.includes(needle)` on character lists (substring containment,
as used by the filename keyword test `lowerName.includes(key)`). -/
def containsSub : List Char → List Char → Bool
  | [], needle => needle.isEmpty
  | h :: t, needle => startsWithSub (h :: t) needle || containsSub t needle

/-- An RGBA color with exact rational channels. -/
def Rgba := ℚ × ℚ × ℚ × ℚ
deriving DecidableEq, Repr

/-- The converter's default base color (`// Default brown/wood color`). -/
def defaultColor : Rgba := (0.6, 0.5, 0.4, 1.0)

/-- The fixed, ordered filename-keyword color table (`colorMap`), in the
source's insertion order, which is the order `Object.entries` iterates. -/
def colorMap : List (List Char × Rgba) :=
  [(['w', 'h', 'i', 't', 'e'], (0.95, 0.95, 0.95, 1.0)),
   (['g', 'r', 'a', 'y'], (0.6, 0.6, 0.6, 1.0)),
   (['g', 'r', 'e', 'y'], (0.6, 0.6, 0.6, 1.0)),
   (['b', 'l', 'u', 'e'], (0.2, 0.4, 0.7, 1.0)),
   (['o', 'r', 'a', 'n', 'g', 'e'], (0.9, 0.5, 0.2, 1.0)),
   (['g', 'r', 'e', 'e', 'n'], (0.3, 0.6, 0.3, 1.0)),
   (['b', 'r', 'o', 'w', 'n'], (0.55, 0.35, 0.2, 1.0)),
   (['w', 'a', 'l', 'n', 'u', 't'], (0.4, 0.25, 0.15, 1.0)),
   (['o', 'a', 'k'], (0.7, 0.55, 0.35, 1.0)),
   (['w', 'h', 'i', 't', 'e', 'o', 'a', 'k'], (0.8, 0.7, 0.5, 1.0)),
   (['s', 'm', 'o', 'k', 'e'], (0.4, 0.4, 0.45, 1.0)),
   (['b', 'l', 'a', 'c', 'k'], (0.15, 0.15, 0.15, 1.0))]

/-- The `for (const [key, color] of Object.entries(colorMap))` loop with
its `break`: the color of the first keyword contained in the lowercased
filename, if any. -/
def findKeywordColor (lowerName : List Char) : Option Rgba :=
  (colorMap.find? (fun kv => containsSub lowerName kv.1)).map (fun kv => kv.2)

/-- The material filter of the source: a diffuse color is used unless it
is near-white (`c[0] > 0.9 && c[1] > 0.9 && c[2] > 0.9`) or near-gray
(`Math.abs(c[0]-c[1]) < 0.05 && Math.abs(c[1]-c[2]) < 0.05`). -/
def matQualifies (c : ℚ × ℚ × ℚ) : Bool :=
  decide (¬(c.1 > 0.9 ∧ c.2.1 > 0.9 ∧ c.2.2 > 0.9) ∧
    ¬(|c.1 - c.2.1| < 0.05 ∧ |c.2.1 - c.2.2| < 0.05))

/-- The `for (const mat of materials)` loop with its `break`: the first
material whose `colorDiffuse` exists and passes the filter; a material
without `colorDiffuse` (`none`) is skipped. -/
def findMaterialColor (mats : List (Option (ℚ × ℚ × ℚ))) : Option (ℚ × ℚ × ℚ) :=
  mats.findSome? (fun m =>
    match m with
    | some c => if matQualifies c then some c else none
    | none => none)

/-- The base-color resolution of `convertThreeJsJsonToGltf`, in source
order: start from the brown default, overwrite with the first matching
filename keyword, then overwrite with the first qualifying material
diffuse color (the material scan runs unconditionally after the keyword
scan). -/
def resolveColor (mats : List (Option (ℚ × ℚ × ℚ))) (fileName : List Char) : Rgba :=
  let lowerName := jsToLower fileName
  let base := (findKeywordColor lowerName).getD defaultColor
  match findMaterialColor mats with
  | some c => (c.1, c.2.1, c.2.2, 1.0)
  | none => base

/-- The bounding-box accumulation loop
(`for (let j = 0; j < positions.length; j += 3)`), carrying per-axis
min/max accumulators; a trailing partial triple (impossible in the
pipeline, where positions always come in triples) reads `undefined`
components, which `Math.min`/`Math.max` turn into `NaN`. -/
def bboxLoop : List JNum → JNum × JNum × JNum → JNum × JNum × JNum →
    (JNum × JNum × JNum) × (JNum × JNum × JNum)
  | px :: py :: pz :: rest, mn, mx =>
      bboxLoop rest
        (jsMin mn.1 px, jsMin mn.2.1 py, jsMin mn.2.2 pz)
        (jsMax mx.1 px, jsMax mx.2.1 py, jsMax mx.2.2 pz)
  | [px, py], mn, mx =>
      ((jsMin mn.1 px, jsMin mn.2.1 py, JNum.nan),
       (jsMax mx.1 px, jsMax mx.2.1 py, JNum.nan))
  | [px], mn, mx =>
      ((jsMin mn.1 px, JNum.nan, JNum.nan), (jsMax mx.1 px, JNum.nan, JNum.nan))
  | [], mn, mx => (mn, mx)

/-- A legacy Three.js JSON mesh document, as read by the converter after
JSON parsing and the `|| default` field fall-backs.  `uvChannels` keeps
the array-of-channels shape; the converter uses only channel 0. -/
structure LegacyDoc where
  scale : ℚ
  vertices : List ℚ
  normals : List ℚ
  uvChannels : List (List ℚ)
  faces : List ℤ
  materials : List (Option (ℚ × ℚ × ℚ))
deriving DecidableEq, Repr

/-- The result record of `convertThreeJsJsonToGltf`: flat attribute
buffers, triangle indices, the element-width choice made by
`indices.length < 65536 ? new Uint16Array(indices) : new Uint32Array(indices)`
(`is16`), the resolved base color and the bounding box. -/
structure ConvertedData where
  positions : List JNum
  normalData : List ℚ
  uvData : List ℚ
  indices : List ℕ
  is16 : Bool
  baseColor : Rgba
  boundsMin : JNum × JNum × JNum
  boundsMax : JNum × JNum × JNum
deriving DecidableEq, Repr

/-- `convertThreeJsJsonToGltf(modelData, fileName)`: decode and expand the
face stream, resolve the base color, choose the index element width after
the full expansion, and accumulate the bounding box from the
`±Infinity` sentinels over the scaled positions. -/
def convertThreeJsJsonToGltf (doc : LegacyDoc) (fileName : List Char) : ConvertedData :=
  let uvs := doc.uvChannels.headD []
  let st := faceLoop doc.vertices doc.normals uvs doc.scale doc.faces ⟨[], [], [], [], 0⟩
  let mm := bboxLoop st.positions (JNum.inf, JNum.inf, JNum.inf)
    (JNum.negInf, JNum.negInf, JNum.negInf)
  { positions := st.positions
    normalData := st.normalData
    uvData := st.uvData
    indices := st.indices
    is16 := decide (st.indices.length < 65536)
    baseColor := resolveColor doc.materials fileName
    boundsMin := mm.1
    boundsMax := mm.2 }

/-- `const pad = (len) => (4 - (len % 4)) % 4;` — bytes needed to reach
the next 4-byte boundary. -/
def jsPad (len : ℕ) : ℕ := (4 - len % 4) % 4

/-- The packed buffer's total length, the sum of the four padded segment
lengths in the fixed order positions, normals, uvs, indices
(`bufferLength` in `createGlb`). -/
def bufferLengthOf (posLen normLen uvLen idxLen : ℕ) : ℕ :=
  posLen + jsPad posLen + normLen + jsPad normLen + uvLen + jsPad uvLen +
    idxLen + jsPad idxLen

/-- One glTF buffer view (byte range of the packed buffer plus its
target hint). -/
structure BufferView where
  byteOffset : ℕ
  byteLength : ℕ
  target : ℕ
deriving DecidableEq, Repr

/-- The four buffer views emitted by `createGlb`, with the offsets
accumulated over the padded segment lengths (34962 = vertex-buffer
target, 34963 = index-buffer target). -/
def bufferViewsOf (posLen normLen uvLen idxLen : ℕ) : List BufferView :=
  [⟨0, posLen, 34962⟩,
   ⟨posLen + jsPad posLen, normLen, 34962⟩,
   ⟨posLen + jsPad posLen + normLen + jsPad normLen, uvLen, 34962⟩,
   ⟨posLen + jsPad posLen + normLen + jsPad normLen + uvLen + jsPad uvLen,
     idxLen, 34963⟩]

/-- One glTF accessor as emitted by `createGlb` (the position accessor
additionally carries the bounding box, kept separately in
`ConvertedData`). -/
structure Accessor where
  bufferView : ℕ
  componentType : ℕ
  count : ℕ
  type : String
deriving DecidableEq, Repr

/-- The component type recorded for the index accessor:
`data.indices instanceof Uint16Array ? 5123 : 5125`. -/
def indexComponentType (d : ConvertedData) : ℕ := if d.is16 then 5123 else 5125

/-- The four accessors emitted by `createGlb` (5126 = 32-bit float;
5123 / 5125 = 16- / 32-bit unsigned integer). -/
def gltfAccessors (d : ConvertedData) : List Accessor :=
  [⟨0, 5126, d.positions.length / 3, "VEC3"⟩,
   ⟨1, 5126, d.normalData.length / 3, "VEC3"⟩,
   ⟨2, 5126, d.uvData.length / 2, "VEC2"⟩,
   ⟨3, indexComponentType d, d.indices.length, "SCALAR"⟩]

/-- The packed binary buffer: `Buffer.alloc(bufferLength)` zero-fills,
then each segment is copied at the accumulated offset, so the buffer is
the four segments in order, each followed by its zero padding. -/
def binBufferBytes (posB normB uvB idxB : List ℕ) : List ℕ :=
  posB ++ List.replicate (jsPad posB.length) 0 ++
    normB ++ List.replicate (jsPad normB.length) 0 ++
    uvB ++ List.replicate (jsPad uvB.length) 0 ++
    idxB ++ List.replicate (jsPad idxB.length) 0

/-- `buf.writeUInt32LE(n)`: the four little-endian bytes of `n`
(wrapping modulo `2^32`, as the JavaScript call does). -/
def u32le (n : ℕ) : List ℕ :=
  [n % 256, n / 256 % 256, n / 65536 % 256, n / 16777216 % 256]

/-- Reading back a 4-byte little-endian field. -/
def u32dec : List ℕ → ℕ
  | [a, b, c, d] => a + 256 * b + 65536 * c + 16777216 * d
  | _ => 0

/-- `glbLength = 12 + 8 + gltfBytes.length + gltfPadding + 8 + bufferLength`:
the total container length written into the header. -/
def glbTotalLength (posLen normLen uvLen idxLen jsonLen : ℕ) : ℕ :=
  12 + 8 + jsonLen + jsPad jsonLen + 8 + bufferLengthOf posLen normLen uvLen idxLen

/-- The emitted GLB container: 12-byte header (magic `"glTF"`, version 2,
total length), the 8-byte-prefixed JSON chunk padded to a 4-byte boundary
with ASCII spaces (0x20), and the 8-byte-prefixed binary chunk
(tag `"BIN\0"`) holding the packed buffer.  The scene JSON is abstracted
as its UTF-8 byte sequence `jsonB`. -/
def createGlbBytes (posB normB uvB idxB jsonB : List ℕ) : List ℕ :=
  u32le 0x46546C67 ++ u32le 2 ++
    u32le (glbTotalLength posB.length normB.length uvB.length idxB.length jsonB.length) ++
    u32le (jsonB.length + jsPad jsonB.length) ++ u32le 0x4E4F534A ++
    jsonB ++ List.replicate (jsPad jsonB.length) 0x20 ++
    u32le (bufferLengthOf posB.length normB.length uvB.length idxB.length) ++
    u32le 0x004E4942 ++
    binBufferBytes posB normB uvB idxB

/-- The number of triangles the loop emits for a face stream: 2 per quad
record, 1 per triangle record (record advancement exactly as in
`decodeFace`). -/
def triCount : List ℤ → ℕ
  | [] => 0
  | f :: r => (if bitOf f 0 then 2 else 1) + triCount (decodeFace f r).rest
termination_by l => l.length
decreasing_by
  simp only [List.length_cons]
  exact Nat.lt_succ_of_le (decodeFace_rest_le f r)

/-- The number of expanded per-corner vertices for a face stream: 4 per
quad record, 3 per triangle record. -/
def cornerCount : List ℤ → ℕ
  | [] => 0
  | f :: r => (if bitOf f 0 then 4 else 3) + cornerCount (decodeFace f r).rest
termination_by l => l.length
decreasing_by
  simp only [List.length_cons]
  exact Nat.lt_succ_of_le (decodeFace_rest_le f r)

theorem triCount_nil : triCount [] = 0 := by simp [triCount]

theorem triCount_cons (f : ℤ) (r : List ℤ) :
    triCount (f :: r) = (if bitOf f 0 then 2 else 1) + triCount (decodeFace f r).rest := by
  rw [triCount]

theorem cornerCount_nil : cornerCount [] = 0 := by simp [cornerCount]

theorem cornerCount_cons (f : ℤ) (r : List ℤ) :
    cornerCount (f :: r) =
      (if bitOf f 0 then 4 else 3) + cornerCount (decodeFace f r).rest := by
  rw [cornerCount]

theorem decodeFace_isQuad (f : ℤ) (r : List ℤ) :
    (decodeFace f r).isQuad = bitOf f 0 := rfl

theorem decodeFace_numVertices (f : ℤ) (r : List ℤ) :
    (decodeFace f r).numVertices = if bitOf f 0 then 4 else 3 := rfl

/-- The flat position components pushed for corner `v` of a face. -/
def cornerPos (V : List ℚ) (s : ℚ) (fr : FaceRecord) (v : ℕ) : List JNum :=
  [(readPosition V s ((fr.vertexIndices[v]?).bind id)).1,
   (readPosition V s ((fr.vertexIndices[v]?).bind id)).2.1,
   (readPosition V s ((fr.vertexIndices[v]?).bind id)).2.2]

theorem foldl_emitCorner_indices (V N U : List ℚ) (s : ℚ) (fr : FaceRecord) :
    ∀ (lst : List ℕ) (st : ConvState),
      (lst.foldl (emitCorner V N U s fr) st).indices = st.indices := by
  intro lst
  induction lst with
  | nil => intro st; rfl
  | cons a t ih => intro st; rw [List.foldl_cons, ih]; rfl

theorem foldl_emitCorner_vertexIndex (V N U : List ℚ) (s : ℚ) (fr : FaceRecord) :
    ∀ (lst : List ℕ) (st : ConvState),
      (lst.foldl (emitCorner V N U s fr) st).vertexIndex =
        st.vertexIndex + lst.length := by
  intro lst
  induction lst with
  | nil => intro st; rfl
  | cons a t ih =>
      intro st
      rw [List.foldl_cons, ih]
      simp [emitCorner]
      omega

theorem foldl_emitCorner_positions (V N U : List ℚ) (s : ℚ) (fr : FaceRecord) :
    ∀ (lst : List ℕ) (st : ConvState),
      (lst.foldl (emitCorner V N U s fr) st).positions =
        st.positions ++ (lst.map (cornerPos V s fr)).flatten := by
  intro lst
  induction lst with
  | nil => intro st; simp
  | cons a t ih =>
      intro st
      rw [List.foldl_cons, ih]
      simp [emitCorner, cornerPos]

theorem emitFace_indices (V N U : List ℚ) (s : ℚ) (fr : FaceRecord) (st : ConvState) :
    (emitFace V N U s fr st).indices =
      st.indices ++
        (if fr.isQuad then
          [st.vertexIndex, st.vertexIndex + 1, st.vertexIndex + 2,
           st.vertexIndex, st.vertexIndex + 2, st.vertexIndex + 3]
        else [st.vertexIndex, st.vertexIndex + 1, st.vertexIndex + 2]) := by
  simp [emitFace, foldl_emitCorner_indices]

theorem emitFace_vertexIndex (V N U : List ℚ) (s : ℚ) (fr : FaceRecord) (st : ConvState) :
    (emitFace V N U s fr st).vertexIndex = st.vertexIndex + fr.numVertices := by
  simp [emitFace, foldl_emitCorner_vertexIndex]

theorem emitFace_positions (V N U : List ℚ) (s : ℚ) (fr : FaceRecord) (st : ConvState) :
    (emitFace V N U s fr st).positions =
      st.positions ++ ((List.range fr.numVertices).map (cornerPos V s fr)).flatten := by
  simp [emitFace, foldl_emitCorner_positions]

theorem cornerPos_length (V : List ℚ) (s : ℚ) (fr : FaceRecord) (v : ℕ) :
    (cornerPos V s fr v).length = 3 := rfl

theorem emitFace_positions_length (V N U : List ℚ) (s : ℚ) (fr : FaceRecord)
    (st : ConvState) :
    (emitFace V N U s fr st).positions.length =
      st.positions.length + 3 * fr.numVertices := by
  rw [emitFace_positions]
  simp [List.length_flatten, Function.comp_def, cornerPos_length, List.map_const',
    List.sum_replicate, smul_eq_mul]
  omega

theorem emitFace_indices_length (V N U : List ℚ) (s : ℚ) (fr : FaceRecord)
    (st : ConvState) :
    (emitFace V N U s fr st).indices.length =
      st.indices.length + (if fr.isQuad then 6 else 3) := by
  rw [emitFace_indices]
  cases fr.isQuad <;> simp

/-- Loop invariant: the face loop adds `3 · triCount` indices,
`3 · cornerCount` position components, and `cornerCount` fresh corner
indices, whatever the starting state. -/
theorem faceLoop_stats (V N U : List ℚ) (s : ℚ) :
    ∀ (n : ℕ) (l : List ℤ), l.length ≤ n → ∀ st : ConvState,
      (faceLoop V N U s l st).indices.length = st.indices.length + 3 * triCount l ∧
      (faceLoop V N U s l st).positions.length =
        st.positions.length + 3 * cornerCount l ∧
      (faceLoop V N U s l st).vertexIndex = st.vertexIndex + cornerCount l := by
  intro n
  induction n with
  | zero =>
      intro l hl st
      have : l = [] := List.length_eq_zero.mp (Nat.le_zero.mp hl)
      subst this
      simp [faceLoop_nil, triCount_nil, cornerCount_nil]
  | succ n ih =>
      intro l hl st
      cases l with
      | nil => simp [faceLoop_nil, triCount_nil, cornerCount_nil]
      | cons f r =>
          have hr : (decodeFace f r).rest.length ≤ n := by
            have h1 := decodeFace_rest_le f r
            simp only [List.length_cons] at hl
            omega
          rw [faceLoop_cons, triCount_cons, cornerCount_cons]
          obtain ⟨h1, h2, h3⟩ := ih (decodeFace f r).rest hr
            (emitFace V N U s (decodeFace f r) st)
          refine ⟨?_, ?_, ?_⟩
          · rw [h1, emitFace_indices_length, decodeFace_isQuad]
            cases hb : bitOf f 0 <;> simp <;> omega
          · rw [h2, emitFace_positions_length, decodeFace_numVertices]
            cases hb : bitOf f 0 <;> simp <;> omega
          · rw [h3, emitFace_vertexIndex, decodeFace_numVertices]
            cases hb : bitOf f 0 <;> simp <;> omega

theorem convert_indices_length (doc : LegacyDoc) (name : List Char) :
    (convertThreeJsJsonToGltf doc name).indices.length = 3 * triCount doc.faces := by
  have h := (faceLoop_stats doc.vertices doc.normals (doc.uvChannels.headD [])
    doc.scale doc.faces.length doc.faces (le_refl _) ⟨[], [], [], [], 0⟩).1
  simpa [convertThreeJsJsonToGltf] using h

theorem convert_positions_length (doc : LegacyDoc) (name : List Char) :
    (convertThreeJsJsonToGltf doc name).positions.length =
      3 * cornerCount doc.faces := by
  have h := (faceLoop_stats doc.vertices doc.normals (doc.uvChannels.headD [])
    doc.scale doc.faces.length doc.faces (le_refl _) ⟨[], [], [], [], 0⟩).2.1
  simpa [convertThreeJsJsonToGltf] using h

theorem startsWithSub_append_left (n : List Char) :
    ∀ (s m : List Char), startsWithSub s (n ++ m) = true → startsWithSub s n = true := by
  induction n with
  | nil => intro s m _; cases s <;> rfl
  | cons a t ih =>
      intro s m h
      cases s with
      | nil => simp [startsWithSub] at h
      | cons c cs =>
          simp only [List.cons_append, startsWithSub, Bool.and_eq_true] at h ⊢
          exact ⟨h.1, ih cs m h.2⟩

theorem containsSub_append_left (n m : List Char) :
    ∀ (hay : List Char), containsSub hay (n ++ m) = true → containsSub hay n = true := by
  intro hay
  induction hay with
  | nil =>
      intro h
      simp [containsSub, List.isEmpty_iff, List.append_eq_nil] at h ⊢
      exact h.1
  | cons c cs ih =>
      intro h
      simp only [containsSub, Bool.or_eq_true] at h ⊢
      rcases h with h | h
      · exact Or.inl (startsWithSub_append_left n (c :: cs) m h)
      · exact Or.inr (ih h)

/-- Every color in the keyword table, and the default, has alpha 1. -/
theorem findKeywordColor_alpha (l : List Char) (k : Rgba)
    (h : findKeywordColor l = some k) : k.2.2.2 = 1 := by
  unfold findKeywordColor at h
  cases hf : colorMap.find? (fun kv => containsSub l kv.1) with
  | none => rw [hf] at h; simp at h
  | some kv =>
      rw [hf] at h
      simp only [Option.map_some', Option.some.injEq] at h
      have hmem := List.mem_of_find?_eq_some hf
      have hall : ∀ kv ∈ colorMap, kv.2.2.2.2 = 1 := by
        intro kv hkv
        simp only [colorMap, List.mem_cons, List.not_mem_nil, or_false] at hkv
        rcases hkv with rfl | rfl | rfl | rfl | rfl | rfl | rfl | rfl | rfl | rfl |
          rfl | rfl <;> norm_num
      rw [← h]
      exact hall kv hmem

/-- Claim C1 (amended): the resolver always produces exactly one RGBA
with alpha 1, but the precedence between the first two stages is the
reverse of the claim: the material-diffuse scan runs after the filename
keyword table and, when a qualifying diffuse exists, overrides the
keyword color; the keyword color is used only when no material
qualifies; the brown default only when neither stage produces a color. -/
theorem C1_resolver_precedence (mats : List (Option (ℚ × ℚ × ℚ))) (name : List Char) :
    (resolveColor mats name).2.2.2 = 1 ∧
    (∀ c : ℚ × ℚ × ℚ, findMaterialColor mats = some c →
      resolveColor mats name = (c.1, c.2.1, c.2.2, 1.0)) ∧
    (findMaterialColor mats = none →
      ∀ k : Rgba, findKeywordColor (jsToLower name) = some k →
        resolveColor mats name = k) ∧
    (findMaterialColor mats = none → findKeywordColor (jsToLower name) = none →
      resolveColor mats name = defaultColor) := by
  refine ⟨?_, ?_, ?_, ?_⟩
  · cases hm : findMaterialColor mats with
    | some c => simp [resolveColor, hm]; norm_num
    | none =>
        cases hk : findKeywordColor (jsToLower name) with
        | some k =>
            have := findKeywordColor_alpha _ _ hk
            simp [resolveColor, hm, hk, this]
        | none => simp [resolveColor, hm, hk, defaultColor]; norm_num
  · intro c hm
    simp [resolveColor, hm]
  · intro hm k hk
    simp [resolveColor, hm, hk]
  · intro hm hk
    simp [resolveColor, hm, hk]

theorem matQualifies_redDiffuse : matQualifies (0.8, 0.2, 0.2) = true := by
  simp only [matQualifies, decide_eq_true_eq]
  constructor
  · norm_num
  · rintro ⟨h1, -⟩
    rw [show (0.8 : ℚ) - 0.2 = 0.6 by norm_num] at h1
    rw [abs_of_nonneg (by norm_num)] at h1
    norm_num at h1

theorem findMaterialColor_redDiffuse :
    findMaterialColor [some (0.8, 0.2, 0.2)] = some (0.8, 0.2, 0.2) := by
  simp [findMaterialColor, matQualifies_redDiffuse]

theorem C1_witness :
    resolveColor [some (0.8, 0.2, 0.2)] ['p'] = (0.8, 0.2, 0.2, 1.0) :=
  (C1_resolver_precedence [some (0.8, 0.2, 0.2)] ['p']).2.1 (0.8, 0.2, 0.2)
    findMaterialColor_redDiffuse

/-- Claim C1 counterexample: the filename `blue.js` contains the keyword
`blue`, yet a qualifying material diffuse `(0.8, 0.2, 0.2)` overrides it,
so the result is the material color, not the `blue` keyword constant
`(0.2, 0.4, 0.7, 1.0)` — the claimed keyword-over-material precedence is
false. -/
theorem C1_counterexample :
    containsSub (jsToLower ['b', 'l', 'u', 'e', '.', 'j', 's']) ['b', 'l', 'u', 'e'] =
      true ∧
    resolveColor [some (0.8, 0.2, 0.2)] ['b', 'l', 'u', 'e', '.', 'j', 's'] =
      (0.8, 0.2, 0.2, 1.0) ∧
    ((0.8, 0.2, 0.2, 1.0) : Rgba) ≠ (0.2, 0.4, 0.7, 1.0) := by
  refine ⟨by decide, ?_, ?_⟩
  · simp [resolveColor, findMaterialColor_redDiffuse]
  · intro h
    have := congrArg (fun x : Rgba => x.1) h
    norm_num at this

/-- Claim C2: contrary to the claim, a lowercased filename containing
`whiteoak` resolves to the `white` constant `(0.95, 0.95, 0.95, 1.0)`,
because the table is scanned in declared order and `white` — checked
first — is a substring of `whiteoak`; the table's own `whiteoak` entry is
unreachable.  (Stated for any document whose materials don't override the
keyword stage.) -/
theorem C2_whiteoak_matches_white (mats : List (Option (ℚ × ℚ × ℚ))) (name : List Char)
    (h1 : containsSub (jsToLower name) ['w', 'h', 'i', 't', 'e', 'o', 'a', 'k'] = true)
    (h2 : findMaterialColor mats = none) :
    resolveColor mats name = (0.95, 0.95, 0.95, 1.0) := by
  have hw : containsSub (jsToLower name) ['w', 'h', 'i', 't', 'e'] = true :=
    containsSub_append_left ['w', 'h', 'i', 't', 'e'] ['o', 'a', 'k'] _ h1
  simp only [resolveColor, findKeywordColor, colorMap, h2]
  rw [List.find?_cons_of_pos _ (by simpa using hw)]
  rfl

theorem C2_witness :
    resolveColor [] ['w', 'h', 'i', 't', 'e', 'o', 'a', 'k', '.', 'j', 's'] =
      (0.95, 0.95, 0.95, 1.0) :=
  C2_whiteoak_matches_white [] ['w', 'h', 'i', 't', 'e', 'o', 'a', 'k', '.', 'j', 's']
    (by decide) (by decide)

theorem listAtZ_oob (a : List ℚ) (i : ℤ) (h : i < 0 ∨ (a.length : ℤ) ≤ i) :
    listAtZ a i = none := by
  unfold listAtZ
  rcases h with h | h
  · rw [if_neg (by omega)]
  · rw [if_pos (by omega)]
    exact List.getElem?_eq_none (by omega)

/-- Claim C10: the decoder/expander does no bounds checking: an
out-of-range per-vertex normal or UV index yields 0 components through
the `|| 0` fallback, and an out-of-range vertex position index yields
`NaN` position components; expansion itself cannot fail. -/
theorem C10_no_bounds_check :
    (∀ (N : List ℚ) (k : ℤ), k < 0 ∨ (N.length : ℤ) ≤ 3 * k →
      readNormal N (some k) = (0, 0, 0)) ∧
    (∀ (U : List ℚ) (k : ℤ), k < 0 ∨ (U.length : ℤ) ≤ 2 * k →
      readUV U (some k) = (0, 0)) ∧
    (∀ (V : List ℚ) (s : ℚ) (k : ℤ), k < 0 ∨ (V.length : ℤ) ≤ 3 * k →
      readPosition V s (some k) = (JNum.nan, JNum.nan, JNum.nan)) := by
  refine ⟨?_, ?_, ?_⟩
  · intro N k h
    have h0 : listAtZ N (3 * k) = none := listAtZ_oob _ _ (by omega)
    have h1 : listAtZ N (3 * k + 1) = none := listAtZ_oob _ _ (by omega)
    have h2 : listAtZ N (3 * k + 2) = none := listAtZ_oob _ _ (by omega)
    simp [readNormal, atOr0, h0, h1, h2]
  · intro U k h
    have h0 : listAtZ U (2 * k) = none := listAtZ_oob _ _ (by omega)
    have h1 : listAtZ U (2 * k + 1) = none := listAtZ_oob _ _ (by omega)
    simp [readUV, atOr0, h0, h1]
  · intro V s k h
    have h0 : listAtZ V (3 * k) = none := listAtZ_oob _ _ (by omega)
    have h1 : listAtZ V (3 * k + 1) = none := listAtZ_oob _ _ (by omega)
    have h2 : listAtZ V (3 * k + 2) = none := listAtZ_oob _ _ (by omega)
    simp [readPosition, jscale, h0, h1, h2]

theorem C10_witness :
    readNormal [1, 2, 3] (some 5) = (0, 0, 0) ∧
    readUV [1, 2] (some 7) = (0, 0) ∧
    readPosition [1, 2, 3] 2 (some (-1)) = (JNum.nan, JNum.nan, JNum.nan) :=
  ⟨C10_no_bounds_check.1 [1, 2, 3] 5 (by decide),
   C10_no_bounds_check.2.1 [1, 2] 7 (by decide),
   C10_no_bounds_check.2.2 [1, 2, 3] 2 (-1) (by decide)⟩

/-- The malformed input of the truncated-stream scenario: a face whose
flag declares a quad but whose stream has only 2 remaining integers. -/
def truncDoc : LegacyDoc :=
  ⟨1, [0, 0, 0, 1, 0, 0], [], [], [1, 0, 1], []⟩

/-- Claim C3 counterexample: on the quad-flag-with-2-integers stream the
conversion does not fail at all — the expansion completes, emitting a
full quad (12 position components, 6 indices), so a container is
produced for this input; there is no `FormatError` path in the code. -/
theorem C3_counterexample :
    (convertThreeJsJsonToGltf truncDoc ['m']).positions.length = 12 ∧
    (convertThreeJsJsonToGltf truncDoc ['m']).indices = [0, 1, 2, 0, 2, 3] := by
  have hd : decodeFace 1 [0, 1] =
      ⟨true, 4, [some 0, some 1, none, none], [], [], []⟩ := by decide
  simp only [convertThreeJsJsonToGltf, truncDoc]
  rw [faceLoop_cons, hd, faceLoop_nil]
  refine ⟨?_, ?_⟩
  · simp [emitFace, emitCorner, List.range_succ]
  · simp [emitFace, foldl_emitCorner_indices, foldl_emitCorner_vertexIndex]

/-- Claim C3 (amended): a face stream that ends mid-record does not
raise; the missing integers are read as `undefined`, so the missing
corners get `NaN` positions and the default normal/UV, the quad is still
triangulated, and the conversion completes normally (the output file is
then written, not suppressed). -/
theorem C3_silent_truncation :
    (convertThreeJsJsonToGltf truncDoc ['m']).positions =
      [JNum.num 0, JNum.num 0, JNum.num 0, JNum.num 1, JNum.num 0, JNum.num 0,
       JNum.nan, JNum.nan, JNum.nan, JNum.nan, JNum.nan, JNum.nan] ∧
    (convertThreeJsJsonToGltf truncDoc ['m']).normalData =
      [0, 1, 0, 0, 1, 0, 0, 1, 0, 0, 1, 0] ∧
    (convertThreeJsJsonToGltf truncDoc ['m']).uvData = [0, 0, 0, 0, 0, 0, 0, 0] ∧
    (convertThreeJsJsonToGltf truncDoc ['m']).indices = [0, 1, 2, 0, 2, 3] := by
  have hd : decodeFace 1 [0, 1] =
      ⟨true, 4, [some 0, some 1, none, none], [], [], []⟩ := by decide
  simp only [convertThreeJsJsonToGltf, truncDoc]
  rw [faceLoop_cons, hd, faceLoop_nil]
  refine ⟨?_, ?_, ?_, ?_⟩ <;>
    simp [emitFace, emitCorner, List.range_succ, readPosition, readNormal, readUV,
      jscale, listAtZ, atOr0, foldl_emitCorner_indices]

/-- The round-trip document of the spec: one flag-0 triangle over three
vertices. -/
def roundTripDoc : LegacyDoc :=
  ⟨1, [0, 0, 0, 1, 0, 0, 1, 1, 0], [], [], [0, 0, 1, 2], []⟩

/-- Claim C8: the concrete round-trip — one triangle (`[0, 1, 2]`),
positions equal to the three source vertices (scale 1), all normals the
default `(0, 1, 0)`, all UVs the default `(0, 0)`, bounding box
`min = (0,0,0)`, `max = (1,1,0)`. -/
theorem C8_round_trip :
    (convertThreeJsJsonToGltf roundTripDoc ['m']).indices = [0, 1, 2] ∧
    (convertThreeJsJsonToGltf roundTripDoc ['m']).positions =
      [JNum.num 0, JNum.num 0, JNum.num 0, JNum.num 1, JNum.num 0, JNum.num 0,
       JNum.num 1, JNum.num 1, JNum.num 0] ∧
    (convertThreeJsJsonToGltf roundTripDoc ['m']).normalData =
      [0, 1, 0, 0, 1, 0, 0, 1, 0] ∧
    (convertThreeJsJsonToGltf roundTripDoc ['m']).uvData = [0, 0, 0, 0, 0, 0] ∧
    (convertThreeJsJsonToGltf roundTripDoc ['m']).boundsMin =
      (JNum.num 0, JNum.num 0, JNum.num 0) ∧
    (convertThreeJsJsonToGltf roundTripDoc ['m']).boundsMax =
      (JNum.num 1, JNum.num 1, JNum.num 0) := by
  have hd : decodeFace 0 [0, 1, 2] =
      ⟨false, 3, [some 0, some 1, some 2], [], [], []⟩ := by decide
  simp only [convertThreeJsJsonToGltf, roundTripDoc]
  rw [faceLoop_cons, hd, faceLoop_nil]
  refine ⟨?_, ?_, ?_, ?_, ?_, ?_⟩ <;>
    simp [emitFace, emitCorner, List.range_succ, readPosition, readNormal, readUV,
      jscale, listAtZ, atOr0, foldl_emitCorner_indices, bboxLoop, jsMin, jsMax]

/-- Claim C5: per decoded face, a quad emits exactly the 6 indices
`(b, b+1, b+2, b, b+2, b+3)` over its freshly assigned corner indices
(`b` is the corner counter at the start of the face) and a triangle
emits exactly `(b, b+1, b+2)`; the corners themselves are emitted in
source order (`cornerPos` of `0 … numVertices-1`); globally the index
list length is `3 ×` the number of emitted triangles. -/
theorem C5_triangulation (V N U : List ℚ) (s : ℚ) (f : ℤ) (r : List ℤ)
    (st : ConvState) (doc : LegacyDoc) (name : List Char) :
    (emitFace V N U s (decodeFace f r) st).indices =
      st.indices ++
        (if bitOf f 0 then
          [st.vertexIndex, st.vertexIndex + 1, st.vertexIndex + 2,
           st.vertexIndex, st.vertexIndex + 2, st.vertexIndex + 3]
        else [st.vertexIndex, st.vertexIndex + 1, st.vertexIndex + 2]) ∧
    (emitFace V N U s (decodeFace f r) st).positions =
      st.positions ++
        ((List.range (decodeFace f r).numVertices).map
          (cornerPos V s (decodeFace f r))).flatten ∧
    (convertThreeJsJsonToGltf doc name).indices.length = 3 * triCount doc.faces := by
  refine ⟨?_, emitFace_positions V N U s (decodeFace f r) st,
    convert_indices_length doc name⟩
  rw [emitFace_indices, decodeFace_isQuad]

theorem convert_is16 (doc : LegacyDoc) (name : List Char) :
    (convertThreeJsJsonToGltf doc name).is16 =
      decide ((convertThreeJsJsonToGltf doc name).indices.length < 65536) := rfl

/-- Claim C4 (amended): the index accessor's component type is 16-bit
(5123) exactly when the emitted index count — `3 ×` the triangle count,
not the corner count — is below 65536, and 32-bit (5125) otherwise; the
choice is made on the fully expanded index list. -/
theorem C4_width_by_index_count (doc : LegacyDoc) (name : List Char) :
    (((gltfAccessors (convertThreeJsJsonToGltf doc name)).map
        (fun a => a.componentType))[3]? = some 5123 ↔
      (convertThreeJsJsonToGltf doc name).indices.length < 65536) ∧
    (((gltfAccessors (convertThreeJsJsonToGltf doc name)).map
        (fun a => a.componentType))[3]? = some 5125 ↔
      ¬(convertThreeJsJsonToGltf doc name).indices.length < 65536) ∧
    (convertThreeJsJsonToGltf doc name).indices.length = 3 * triCount doc.faces := by
  refine ⟨?_, ?_, convert_indices_length doc name⟩ <;>
    by_cases h : (convertThreeJsJsonToGltf doc name).indices.length < 65536 <;>
    simp [gltfAccessors, indexComponentType, convert_is16, h]

/-- One quad record with no optional fields: flag 1, then 4 vertex
indices. -/
def quadFaceBlock : List ℤ := [1, 0, 1, 2, 3]

/-- A face stream of `n` consecutive quad records. -/
def quadBlock (n : ℕ) : List ℤ := (List.replicate n quadFaceBlock).flatten

theorem bitOf_one_zero : bitOf 1 0 = true := by decide

theorem decodeFace_quadFlag (x0 x1 x2 x3 : ℤ) (tail : List ℤ) :
    decodeFace 1 (x0 :: x1 :: x2 :: x3 :: tail) =
      ⟨true, 4, [some x0, some x1, some x2, some x3], [], [], tail⟩ := by
  have h1 : bitOf 1 1 = false := by decide
  have h2 : bitOf 1 2 = false := by decide
  have h3 : bitOf 1 3 = false := by decide
  have h4 : bitOf 1 4 = false := by decide
  have h5 : bitOf 1 5 = false := by decide
  have h6 : bitOf 1 6 = false := by decide
  have h7 : bitOf 1 7 = false := by decide
  simp [decodeFace, bitOf_one_zero, h1, h2, h3, h4, h5, h6, h7, List.range_succ]

theorem quadBlock_succ (n : ℕ) :
    quadBlock (n + 1) = 1 :: 0 :: 1 :: 2 :: 3 :: quadBlock n := by
  simp [quadBlock, quadFaceBlock, List.replicate_succ]

theorem triCount_quadBlock (n : ℕ) : triCount (quadBlock n) = 2 * n := by
  induction n with
  | zero => simp [quadBlock, triCount_nil]
  | succ n ih =>
      rw [quadBlock_succ, triCount_cons, decodeFace_quadFlag, bitOf_one_zero]
      simp [ih]
      omega

theorem cornerCount_quadBlock (n : ℕ) : cornerCount (quadBlock n) = 4 * n := by
  induction n with
  | zero => simp [quadBlock, cornerCount_nil]
  | succ n ih =>
      rw [quadBlock_succ, cornerCount_cons, decodeFace_quadFlag, bitOf_one_zero]
      simp [ih]
      omega

/-- A document of 10923 quad faces: 43692 corners but 65538 indices. -/
def bigQuadDoc : LegacyDoc := ⟨1, [], [], [], quadBlock 10923, []⟩

/-- Claim C4 counterexample: `bigQuadDoc` has 43692 expanded corners —
below 65536 — yet its index accessor records the 32-bit component type
5125, because the source chooses the width from `indices.length`
(65538 here), not from the corner count; the claimed equivalence with
the corner count is false. -/
theorem convert_is16_false (doc : LegacyDoc) (name : List Char)
    (h : 65536 ≤ (convertThreeJsJsonToGltf doc name).indices.length) :
    (convertThreeJsJsonToGltf doc name).is16 = false := by
  rw [convert_is16]
  simpa using h

theorem C4_counterexample :
    (convertThreeJsJsonToGltf bigQuadDoc ['m']).positions.length = 3 * 43692 ∧
    43692 < 65536 ∧
    ((gltfAccessors (convertThreeJsJsonToGltf bigQuadDoc ['m'])).map
      (fun a => a.componentType))[3]? = some 5125 := by
  have h1 : cornerCount bigQuadDoc.faces = 43692 := by
    show cornerCount (quadBlock 10923) = 43692
    rw [cornerCount_quadBlock]
  have h2 : triCount bigQuadDoc.faces = 21846 := by
    show triCount (quadBlock 10923) = 21846
    rw [triCount_quadBlock]
  have hlen : (convertThreeJsJsonToGltf bigQuadDoc ['m']).indices.length = 65538 := by
    rw [convert_indices_length, h2]
  have h16 : (convertThreeJsJsonToGltf bigQuadDoc ['m']).is16 = false :=
    convert_is16_false _ _ (by rw [hlen]; norm_num)
  refine ⟨?_, by norm_num, ?_⟩
  · rw [convert_positions_length, h1]
  · simp [gltfAccessors, indexComponentType, h16]

theorem u32le_length (n : ℕ) : (u32le n).length = 4 := rfl

theorem u32dec_u32le (n : ℕ) (h : n < 2 ^ 32) : u32dec (u32le n) = n := by
  simp only [u32le, u32dec]
  omega

theorem padAligned (n : ℕ) : (n + jsPad n) % 4 = 0 := by
  simp only [jsPad]
  omega

theorem binBufferBytes_length (p q u x : List ℕ) :
    (binBufferBytes p q u x).length =
      bufferLengthOf p.length q.length u.length x.length := by
  simp only [binBufferBytes, bufferLengthOf, List.length_append, List.length_replicate]

theorem drop_append_len (A B : List ℕ) (n m : ℕ) (h : n = A.length + m) :
    (A ++ B).drop n = B.drop m := by
  subst h
  exact List.drop_append m

/-- Claim C6: the container is the 12-byte header, the 8-byte-prefixed
JSON chunk padded to a 4-byte boundary with ASCII spaces (0x20), and the
8-byte-prefixed binary chunk; the header's total-length field (bytes
8–11, little-endian) equals the exact byte length of the emitted
container, which is `12 + 8 + paddedJson + 8 + bufferLength`. -/
theorem C6_container_length (posB normB uvB idxB jsonB : List ℕ)
    (h : glbTotalLength posB.length normB.length uvB.length idxB.length
      jsonB.length < 2 ^ 32) :
    (createGlbBytes posB normB uvB idxB jsonB).length =
      glbTotalLength posB.length normB.length uvB.length idxB.length jsonB.length ∧
    u32dec (((createGlbBytes posB normB uvB idxB jsonB).drop 8).take 4) =
      (createGlbBytes posB normB uvB idxB jsonB).length ∧
    (jsonB.length + jsPad jsonB.length) % 4 = 0 ∧
    ((createGlbBytes posB normB uvB idxB jsonB).drop 20).take jsonB.length = jsonB ∧
    (createGlbBytes posB normB uvB idxB jsonB).drop
        (28 + jsonB.length + jsPad jsonB.length) =
      binBufferBytes posB normB uvB idxB := by
  have hlen : (createGlbBytes posB normB uvB idxB jsonB).length =
      glbTotalLength posB.length normB.length uvB.length idxB.length jsonB.length := by
    simp only [createGlbBytes, glbTotalLength, List.length_append, u32le_length,
      List.length_replicate, binBufferBytes_length, bufferLengthOf]
  refine ⟨hlen, ?_, padAligned jsonB.length, ?_, ?_⟩
  · rw [hlen]
    simp only [createGlbBytes, List.append_assoc]
    rw [drop_append_len (u32le 0x46546C67) _ 8 4 (by norm_num [u32le_length]),
      drop_append_len (u32le 2) _ 4 0 (by norm_num [u32le_length]), List.drop_zero,
      List.take_left' (u32le_length _)]
    exact u32dec_u32le _ h
  · simp only [createGlbBytes, List.append_assoc]
    rw [drop_append_len (u32le 0x46546C67) _ 20 16 (by norm_num [u32le_length]),
      drop_append_len (u32le 2) _ 16 12 (by norm_num [u32le_length]),
      drop_append_len (u32le (glbTotalLength posB.length normB.length uvB.length
        idxB.length jsonB.length)) _ 12 8 (by norm_num [u32le_length]),
      drop_append_len (u32le (jsonB.length + jsPad jsonB.length)) _ 8 4
        (by norm_num [u32le_length]),
      drop_append_len (u32le 0x4E4F534A) _ 4 0 (by norm_num [u32le_length]),
      List.drop_zero]
    exact List.take_left jsonB _
  · simp only [createGlbBytes, List.append_assoc]
    rw [drop_append_len (u32le 0x46546C67) _ _
        (24 + jsonB.length + jsPad jsonB.length) (by norm_num [u32le_length]; omega),
      drop_append_len (u32le 2) _ _
        (20 + jsonB.length + jsPad jsonB.length) (by norm_num [u32le_length]; omega),
      drop_append_len (u32le (glbTotalLength posB.length normB.length uvB.length
          idxB.length jsonB.length)) _ _
        (16 + jsonB.length + jsPad jsonB.length) (by norm_num [u32le_length]; omega),
      drop_append_len (u32le (jsonB.length + jsPad jsonB.length)) _ _
        (12 + jsonB.length + jsPad jsonB.length) (by norm_num [u32le_length]; omega),
      drop_append_len (u32le 0x4E4F534A) _ _
        (8 + jsonB.length + jsPad jsonB.length) (by norm_num [u32le_length]; omega),
      drop_append_len jsonB _ _ (8 + jsPad jsonB.length) (by omega),
      drop_append_len (List.replicate (jsPad jsonB.length) 0x20) _ _ 8
        (by simp [List.length_replicate]; omega),
      drop_append_len (u32le (bufferLengthOf posB.length normB.length uvB.length
        idxB.length)) _ 8 4 (by norm_num [u32le_length]),
      drop_append_len (u32le 0x004E4942) _ 4 0 (by norm_num [u32le_length]),
      List.drop_zero]

theorem C6_witness :
    (createGlbBytes [] [] [] [] [123, 125]).length = glbTotalLength 0 0 0 0 2 :=
  (C6_container_length [] [] [] [] [123, 125]
    (by norm_num [glbTotalLength, bufferLengthOf, jsPad])).1

/-- Claim C7: the packed buffer is the four segments in the fixed order
positions, normals, uvs, indices, each zero-padded to the next 4-byte
boundary; every buffer-view byte offset is a multiple of 4; the declared
total buffer length equals the sum of the padded segment lengths and the
actual packed byte count; and each segment is recoverable at its
recorded offset. -/
theorem C7_buffer_packing (posB normB uvB idxB : List ℕ) :
    (∀ bv ∈ bufferViewsOf posB.length normB.length uvB.length idxB.length,
      bv.byteOffset % 4 = 0) ∧
    (binBufferBytes posB normB uvB idxB).length =
      bufferLengthOf posB.length normB.length uvB.length idxB.length ∧
    (binBufferBytes posB normB uvB idxB).take posB.length = posB ∧
    ((binBufferBytes posB normB uvB idxB).drop
        (posB.length + jsPad posB.length)).take normB.length = normB ∧
    ((binBufferBytes posB normB uvB idxB).drop
        (posB.length + jsPad posB.length + normB.length +
          jsPad normB.length)).take uvB.length = uvB ∧
    ((binBufferBytes posB normB uvB idxB).drop
        (posB.length + jsPad posB.length + normB.length + jsPad normB.length +
          uvB.length + jsPad uvB.length)).take idxB.length = idxB ∧
    4 ∣ bufferLengthOf posB.length normB.length uvB.length idxB.length := by
  have hp := padAligned posB.length
  have hn := padAligned normB.length
  have hu := padAligned uvB.length
  have hx := padAligned idxB.length
  refine ⟨?_, binBufferBytes_length posB normB uvB idxB, ?_, ?_, ?_, ?_, ?_⟩
  · intro bv hbv
    simp only [bufferViewsOf, List.mem_cons, List.not_mem_nil, or_false] at hbv
    rcases hbv with rfl | rfl | rfl | rfl <;> simp only [] <;> omega
  · simp only [binBufferBytes, List.append_assoc]
    exact List.take_left posB _
  · simp only [binBufferBytes, List.append_assoc]
    rw [drop_append_len _ _ _ (jsPad posB.length) rfl,
      drop_append_len _ _ _ 0 (by simp [List.length_replicate]), List.drop_zero]
    exact List.take_left normB _
  · simp only [binBufferBytes, List.append_assoc]
    rw [drop_append_len _ _ _
        (jsPad posB.length + normB.length + jsPad normB.length) (by omega),
      drop_append_len _ _ _ (normB.length + jsPad normB.length)
        (by simp [List.length_replicate]; omega),
      drop_append_len _ _ _ (jsPad normB.length) (by omega),
      drop_append_len _ _ _ 0 (by simp [List.length_replicate]), List.drop_zero]
    exact List.take_left uvB _
  · simp only [binBufferBytes, List.append_assoc]
    rw [drop_append_len _ _ _
        (jsPad posB.length + normB.length + jsPad normB.length + uvB.length +
          jsPad uvB.length) (by omega),
      drop_append_len _ _ _
        (normB.length + jsPad normB.length + uvB.length + jsPad uvB.length)
        (by simp [List.length_replicate]; omega),
      drop_append_len _ _ _ (jsPad normB.length + uvB.length + jsPad uvB.length)
        (by omega),
      drop_append_len _ _ _ (uvB.length + jsPad uvB.length)
        (by simp [List.length_replicate]; omega),
      drop_append_len _ _ _ (jsPad uvB.length) (by omega),
      drop_append_len _ _ _ 0 (by simp [List.length_replicate]), List.drop_zero]
    exact List.take_left idxB _
  · simp only [bufferLengthOf]
    omega

theorem C7_witness :
    BufferView.byteOffset ⟨4, 2, 34962⟩ % 4 = 0 ∧
    (binBufferBytes [7] [8, 9] [] [1, 2, 3, 4, 5, 6]).length = bufferLengthOf 1 2 0 6 :=
  ⟨(C7_buffer_packing [7] [8, 9] [] [1, 2, 3, 4, 5, 6]).1 ⟨4, 2, 34962⟩ (by decide),
   (C7_buffer_packing [7] [8, 9] [] [1, 2, 3, 4, 5, 6]).2.1⟩

/-- The X components (indices 0, 3, 6, …) of a flat position list. -/
def xComps : List ℚ → List ℚ
  | x :: _ :: _ :: r => x :: xComps r
  | _ => []

/-- The Y components (indices 1, 4, 7, …) of a flat position list. -/
def yComps : List ℚ → List ℚ
  | _ :: y :: _ :: r => y :: yComps r
  | _ => []

/-- The Z components (indices 2, 5, 8, …) of a flat position list. -/
def zComps : List ℚ → List ℚ
  | _ :: _ :: z :: r => z :: zComps r
  | _ => []

/-- One axis of the bounding-box `Math.min` accumulation, over numeric
values. -/
def foldMinQ (a : JNum) (l : List ℚ) : JNum :=
  l.foldl (fun acc q => jsMin acc (JNum.num q)) a

/-- One axis of the bounding-box `Math.max` accumulation, over numeric
values. -/
def foldMaxQ (a : JNum) (l : List ℚ) : JNum :=
  l.foldl (fun acc q => jsMax acc (JNum.num q)) a

theorem bboxLoop_map_num (n : ℕ) :
    ∀ qs : List ℚ, qs.length ≤ n → qs.length % 3 = 0 →
      ∀ mn mx : JNum × JNum × JNum,
      bboxLoop (qs.map JNum.num) mn mx =
        ((foldMinQ mn.1 (xComps qs), foldMinQ mn.2.1 (yComps qs),
          foldMinQ mn.2.2 (zComps qs)),
         (foldMaxQ mx.1 (xComps qs), foldMaxQ mx.2.1 (yComps qs),
          foldMaxQ mx.2.2 (zComps qs))) := by
  induction n with
  | zero =>
      intro qs h1 _ mn mx
      have : qs = [] := List.length_eq_zero.mp (Nat.le_zero.mp h1)
      subst this
      simp [bboxLoop, xComps, yComps, zComps, foldMinQ, foldMaxQ]
  | succ n ih =>
      intro qs h1 h2 mn mx
      rcases qs with _ | ⟨x, _ | ⟨y, _ | ⟨z, r⟩⟩⟩
      · simp [bboxLoop, xComps, yComps, zComps, foldMinQ, foldMaxQ]
      · simp at h2
      · simp at h2
      · have hr1 : r.length ≤ n := by
          simp only [List.length_cons] at h1
          omega
        have hr2 : r.length % 3 = 0 := by
          simp only [List.length_cons] at h2
          omega
        simp only [List.map_cons]
        rw [show bboxLoop (JNum.num x :: JNum.num y :: JNum.num z :: r.map JNum.num)
              mn mx =
            bboxLoop (r.map JNum.num)
              (jsMin mn.1 (JNum.num x), jsMin mn.2.1 (JNum.num y),
                jsMin mn.2.2 (JNum.num z))
              (jsMax mx.1 (JNum.num x), jsMax mx.2.1 (JNum.num y),
                jsMax mx.2.2 (JNum.num z)) from rfl]
        rw [ih r hr1 hr2]
        simp [xComps, yComps, zComps, foldMinQ, foldMaxQ]

theorem foldMinQ_num (l : List ℚ) :
    ∀ a : ℚ, foldMinQ (JNum.num a) l = JNum.num (l.foldl min a) := by
  induction l with
  | nil => intro a; rfl
  | cons x t ih =>
      intro a
      show foldMinQ (jsMin (JNum.num a) (JNum.num x)) t = _
      rw [show jsMin (JNum.num a) (JNum.num x) = JNum.num (min a x) from rfl, ih]
      rfl

theorem foldMaxQ_num (l : List ℚ) :
    ∀ a : ℚ, foldMaxQ (JNum.num a) l = JNum.num (l.foldl max a) := by
  induction l with
  | nil => intro a; rfl
  | cons x t ih =>
      intro a
      show foldMaxQ (jsMax (JNum.num a) (JNum.num x)) t = _
      rw [show jsMax (JNum.num a) (JNum.num x) = JNum.num (max a x) from rfl, ih]
      rfl

theorem foldMinQ_inf (x : ℚ) (xs : List ℚ) :
    foldMinQ JNum.inf (x :: xs) = JNum.num (xs.foldl min x) := by
  show foldMinQ (jsMin JNum.inf (JNum.num x)) xs = _
  rw [show jsMin JNum.inf (JNum.num x) = JNum.num x from rfl, foldMinQ_num]

theorem foldMaxQ_negInf (x : ℚ) (xs : List ℚ) :
    foldMaxQ JNum.negInf (x :: xs) = JNum.num (xs.foldl max x) := by
  show foldMaxQ (jsMax JNum.negInf (JNum.num x)) xs = _
  rw [show jsMax JNum.negInf (JNum.num x) = JNum.num x from rfl, foldMaxQ_num]

theorem foldl_min_spec (l : List ℚ) :
    ∀ a : ℚ, (l.foldl min a = a ∨ l.foldl min a ∈ l) ∧ l.foldl min a ≤ a ∧
      ∀ q ∈ l, l.foldl min a ≤ q := by
  induction l with
  | nil => intro a; simp
  | cons x t ih =>
      intro a
      obtain ⟨h1, h2, h3⟩ := ih (min a x)
      rw [List.foldl_cons]
      refine ⟨?_, ?_, ?_⟩
      · rcases h1 with h | h
        · rcases min_choice a x with hm | hm
          · left; rw [h, hm]
          · right; rw [h, hm]; exact List.mem_cons_self x t
        · right; exact List.mem_cons_of_mem x h
      · exact le_trans h2 (min_le_left a x)
      · intro q hq
        rcases List.mem_cons.mp hq with rfl | hq
        · exact le_trans h2 (min_le_right a q)
        · exact h3 q hq

theorem foldl_max_spec (l : List ℚ) :
    ∀ a : ℚ, (l.foldl max a = a ∨ l.foldl max a ∈ l) ∧ a ≤ l.foldl max a ∧
      ∀ q ∈ l, q ≤ l.foldl max a := by
  induction l with
  | nil => intro a; simp
  | cons x t ih =>
      intro a
      obtain ⟨h1, h2, h3⟩ := ih (max a x)
      rw [List.foldl_cons]
      refine ⟨?_, ?_, ?_⟩
      · rcases h1 with h | h
        · rcases max_choice a x with hm | hm
          · left; rw [h, hm]
          · right; rw [h, hm]; exact List.mem_cons_self x t
        · right; exact List.mem_cons_of_mem x h
      · exact le_trans (le_max_left a x) h2
      · intro q hq
        rcases List.mem_cons.mp hq with rfl | hq
        · exact le_trans (le_max_right a q) h2
        · exact h3 q hq

theorem min_head_spec (x : ℚ) (l : List ℚ) :
    l.foldl min x ∈ x :: l ∧ ∀ q ∈ x :: l, l.foldl min x ≤ q := by
  obtain ⟨h1, h2, h3⟩ := foldl_min_spec l x
  refine ⟨?_, ?_⟩
  · rcases h1 with h | h
    · rw [h]; exact List.mem_cons_self x l
    · exact List.mem_cons_of_mem x h
  · intro q hq
    rcases List.mem_cons.mp hq with rfl | hq
    · exact h2
    · exact h3 q hq

theorem max_head_spec (x : ℚ) (l : List ℚ) :
    l.foldl max x ∈ x :: l ∧ ∀ q ∈ x :: l, q ≤ l.foldl max x := by
  obtain ⟨h1, h2, h3⟩ := foldl_max_spec l x
  refine ⟨?_, ?_⟩
  · rcases h1 with h | h
    · rw [h]; exact List.mem_cons_self x l
    · exact List.mem_cons_of_mem x h
  · intro q hq
    rcases List.mem_cons.mp hq with rfl | hq
    · exact h2
    · exact h3 q hq

theorem convert_bounds (doc : LegacyDoc) (name : List Char) :
    (convertThreeJsJsonToGltf doc name).boundsMin =
      (bboxLoop (convertThreeJsJsonToGltf doc name).positions
        (JNum.inf, JNum.inf, JNum.inf)
        (JNum.negInf, JNum.negInf, JNum.negInf)).1 ∧
    (convertThreeJsJsonToGltf doc name).boundsMax =
      (bboxLoop (convertThreeJsJsonToGltf doc name).positions
        (JNum.inf, JNum.inf, JNum.inf)
        (JNum.negInf, JNum.negInf, JNum.negInf)).2 := ⟨rfl, rfl⟩

theorem cornerCount_pos (f : ℤ) (r : List ℤ) : 3 ≤ cornerCount (f :: r) := by
  rw [cornerCount_cons]
  split <;> omega

/-- Claim C9: for every document with at least one face whose emitted
positions are all numeric, the bounding box recorded for the position
accessor is, per axis, exactly the minimum/maximum over the emitted
scaled position components: it is attained by one of them and bounds all
of them. -/
theorem C9_bounding_box (doc : LegacyDoc) (name : List Char) (qs : List ℚ)
    (h1 : doc.faces ≠ [])
    (h2 : (convertThreeJsJsonToGltf doc name).positions = qs.map JNum.num) :
    ∃ a1 a2 a3 b1 b2 b3 : ℚ,
      (convertThreeJsJsonToGltf doc name).boundsMin =
        (JNum.num a1, JNum.num a2, JNum.num a3) ∧
      (convertThreeJsJsonToGltf doc name).boundsMax =
        (JNum.num b1, JNum.num b2, JNum.num b3) ∧
      a1 ∈ xComps qs ∧ (∀ q ∈ xComps qs, a1 ≤ q) ∧
      a2 ∈ yComps qs ∧ (∀ q ∈ yComps qs, a2 ≤ q) ∧
      a3 ∈ zComps qs ∧ (∀ q ∈ zComps qs, a3 ≤ q) ∧
      b1 ∈ xComps qs ∧ (∀ q ∈ xComps qs, q ≤ b1) ∧
      b2 ∈ yComps qs ∧ (∀ q ∈ yComps qs, q ≤ b2) ∧
      b3 ∈ zComps qs ∧ (∀ q ∈ zComps qs, q ≤ b3) := by
  have hlen : qs.length = 3 * cornerCount doc.faces := by
    have h := convert_positions_length doc name
    rw [h2] at h
    simpa using h
  have hcc : 3 ≤ cornerCount doc.faces := by
    rcases hf : doc.faces with _ | ⟨f, r⟩
    · exact absurd hf h1
    · exact cornerCount_pos f r
  rcases qs with _ | ⟨x, _ | ⟨y, _ | ⟨z, r⟩⟩⟩ <;>
    simp only [List.length_nil, List.length_cons] at hlen
  · omega
  · omega
  · omega
  · have hmod : (x :: y :: z :: r).length % 3 = 0 := by
      simp only [List.length_cons]
      omega
    have hb := bboxLoop_map_num (x :: y :: z :: r).length (x :: y :: z :: r)
      (le_refl _) hmod (JNum.inf, JNum.inf, JNum.inf)
      (JNum.negInf, JNum.negInf, JNum.negInf)
    have hx : xComps (x :: y :: z :: r) = x :: xComps r := rfl
    have hy : yComps (x :: y :: z :: r) = y :: yComps r := rfl
    have hz : zComps (x :: y :: z :: r) = z :: zComps r := rfl
    rw [hx, hy, hz] at hb
    refine ⟨(xComps r).foldl min x, (yComps r).foldl min y, (zComps r).foldl min z,
      (xComps r).foldl max x, (yComps r).foldl max y, (zComps r).foldl max z,
      ?_, ?_, ?_, ?_, ?_, ?_, ?_, ?_, ?_, ?_, ?_, ?_, ?_, ?_⟩
    · rw [(convert_bounds doc name).1, h2, hb]
      simp only [foldMinQ_inf]
    · rw [(convert_bounds doc name).2, h2, hb]
      simp only [foldMaxQ_negInf]
    · rw [hx]; exact (min_head_spec x (xComps r)).1
    · rw [hx]; exact (min_head_spec x (xComps r)).2
    · rw [hy]; exact (min_head_spec y (yComps r)).1
    · rw [hy]; exact (min_head_spec y (yComps r)).2
    · rw [hz]; exact (min_head_spec z (zComps r)).1
    · rw [hz]; exact (min_head_spec z (zComps r)).2
    · rw [hx]; exact (max_head_spec x (xComps r)).1
    · rw [hx]; exact (max_head_spec x (xComps r)).2
    · rw [hy]; exact (max_head_spec y (yComps r)).1
    · rw [hy]; exact (max_head_spec y (yComps r)).2
    · rw [hz]; exact (max_head_spec z (zComps r)).1
    · rw [hz]; exact (max_head_spec z (zComps r)).2

theorem C9_witness :
    ∃ a1 a2 a3 b1 b2 b3 : ℚ,
      (convertThreeJsJsonToGltf roundTripDoc ['m']).boundsMin =
        (JNum.num a1, JNum.num a2, JNum.num a3) ∧
      (convertThreeJsJsonToGltf roundTripDoc ['m']).boundsMax =
        (JNum.num b1, JNum.num b2, JNum.num b3) ∧
      a1 ∈ xComps [0, 0, 0, 1, 0, 0, 1, 1, 0] ∧
      (∀ q ∈ xComps [0, 0, 0, 1, 0, 0, 1, 1, 0], a1 ≤ q) ∧
      a2 ∈ yComps [0, 0, 0, 1, 0, 0, 1, 1, 0] ∧
      (∀ q ∈ yComps [0, 0, 0, 1, 0, 0, 1, 1, 0], a2 ≤ q) ∧
      a3 ∈ zComps [0, 0, 0, 1, 0, 0, 1, 1, 0] ∧
      (∀ q ∈ zComps [0, 0, 0, 1, 0, 0, 1, 1, 0], a3 ≤ q) ∧
      b1 ∈ xComps [0, 0, 0, 1, 0, 0, 1, 1, 0] ∧
      (∀ q ∈ xComps [0, 0, 0, 1, 0, 0, 1, 1, 0], q ≤ b1) ∧
      b2 ∈ yComps [0, 0, 0, 1, 0, 0, 1, 1, 0] ∧
      (∀ q ∈ yComps [0, 0, 0, 1, 0, 0, 1, 1, 0], q ≤ b2) ∧
      b3 ∈ zComps [0, 0, 0, 1, 0, 0, 1, 1, 0] ∧
      (∀ q ∈ zComps [0, 0, 0, 1, 0, 0, 1, 1, 0], q ≤ b3) :=
  C9_bounding_box roundTripDoc ['m'] [0, 0, 0, 1, 0, 0, 1, 1, 0] (by decide)
    (by
      have hd : decodeFace 0 [0, 1, 2] =
          ⟨false, 3, [some 0, some 1, some 2], [], [], []⟩ := by decide
      simp only [convertThreeJsJsonToGltf, roundTripDoc]
      rw [faceLoop_cons, hd, faceLoop_nil]
      simp [emitFace, emitCorner, List.range_succ, readPosition, readNormal, readUV,
        jscale, listAtZ, atOr0])
